import Mathlib

/-!
Shallow embedding of the presence-and-delivery subsystem of a chat backend:
the message status engine (`src/services/messageService.js`) and the
presence tracker (`PresenceTracker`).  Timestamps are modelled as natural
numbers (epoch milliseconds); identifiers as strings.
-/

namespace ChatSpec

/-! ## Message status engine (messageService.js) -/

/-- The three valid message status values `'sent' | 'delivered' | 'read'`. -/
inductive MsgStatus where
  | sent
  | delivered
  | read
deriving DecidableEq, Repr

/-- `statusOrder = { sent: 0, delivered: 1, read: 2 }` from
`updateMessageStatus`. -/
def statusOrder : MsgStatus → Nat
  | .sent => 0
  | .delivered => 1
  | .read => 2

/-- One row of the `message_status` table restricted to a fixed
(messageId, userId) pair: the `status`, `delivered_at` and `read_at`
columns (`none` models SQL NULL). -/
structure StatusRecord where
  status : MsgStatus
  delivered_at : Option Nat
  read_at : Option Nat
deriving DecidableEq, Repr

/-- `MessageService.updateMessageStatus` for a pair whose status record
exists, called with a valid status value: if
`statusOrder[status] <= statusOrder[currentStatus.status]` the record is
returned unchanged (no write); otherwise the row is updated with
`status`, plus `delivered_at` when the new status is `delivered` and
`read_at` when the new status is `read` (other columns keep their
values). -/
def updateMessageStatus (now : Nat) (r : StatusRecord) (status : MsgStatus) : StatusRecord :=
  if statusOrder status ≤ statusOrder r.status then
    r
  else
    { status := status
      delivered_at := if status = .delivered then some now else r.delivered_at
      read_at := if status = .read then some now else r.read_at }

/-- A sequence of `updateMessageStatus` calls, each with its own wall-clock
time, applied in order to one status record. -/
def applyUpdates (r : StatusRecord) (calls : List (Nat × MsgStatus)) : StatusRecord :=
  calls.foldl (fun acc c => updateMessageStatus c.1 acc c.2) r

/-- Maximum of the orders of a list of status values (0 when empty). -/
def maxOrderOf (l : List MsgStatus) : Nat :=
  l.foldr (fun s acc => max (statusOrder s) acc) 0

/-- `MessageService.aggregateGroupStatus` applied to the list of `status`
values of all recipient records of a message: `'sent'` when the list is
empty or a query error occurred; else `'sent'` if any recipient is at
`'sent'`; else `'read'` if all are at `'read'`; else `'delivered'`. -/
def aggregateGroupStatus (statuses : List MsgStatus) : MsgStatus :=
  if statuses.isEmpty then .sent
  else if statuses.any (fun s => s = .sent) then .sent
  else if statuses.all (fun s => s = .read) then .read
  else .delivered

/-! Basic lemmas about the single-pair status machine. -/

theorem statusOrder_le_updateMessageStatus (now : Nat) (r : StatusRecord) (s : MsgStatus) :
    statusOrder r.status ≤ statusOrder (updateMessageStatus now r s).status := by
  unfold updateMessageStatus
  split
  · exact Nat.le_refl _
  · exact Nat.le_of_lt (Nat.lt_of_not_le (by assumption))

theorem updateMessageStatus_noop (now : Nat) (r : StatusRecord) (s : MsgStatus)
    (h : statusOrder s ≤ statusOrder r.status) :
    updateMessageStatus now r s = r := by
  unfold updateMessageStatus
  simp [h]

theorem updateMessageStatus_status (now : Nat) (r : StatusRecord) (s : MsgStatus) :
    statusOrder (updateMessageStatus now r s).status
      = max (statusOrder r.status) (statusOrder s) := by
  unfold updateMessageStatus
  split
  · omega
  · simp only []
    omega

theorem applyUpdates_status_order (r : StatusRecord) (calls : List (Nat × MsgStatus)) :
    statusOrder (applyUpdates r calls).status
      = max (statusOrder r.status) (maxOrderOf (calls.map Prod.snd)) := by
  induction calls generalizing r with
  | nil => simp [applyUpdates, maxOrderOf]
  | cons c rest ih =>
    simp only [applyUpdates, List.foldl_cons, List.map_cons] at *
    rw [ih (updateMessageStatus c.1 r c.2), updateMessageStatus_status]
    simp only [maxOrderOf, List.foldr_cons]
    omega

theorem statusOrder_inj {a b : MsgStatus} (h : statusOrder a = statusOrder b) : a = b := by
  cases a <;> cases b <;> simp_all [statusOrder]

theorem maxOrderOf_perm {l l' : List MsgStatus} (h : l.Perm l') :
    maxOrderOf l = maxOrderOf l' := by
  induction h with
  | nil => rfl
  | cons x _ ih => simp only [maxOrderOf, List.foldr_cons] at *; omega
  | swap x y l => simp only [maxOrderOf, List.foldr_cons]; omega
  | trans _ _ ih1 ih2 => omega

/-- C1 (counterexample): with an existing status record already at `read`
(reachable by an earlier `read` update), a sequence consisting of the single
call `updateMessageStatus(…, 'sent')` leaves the stored status at `read`,
which differs from `sent`, the maximum of all attempted newStatus values.
So the final stored status does not in general equal the maximum of the
attempted values alone. -/
theorem C1_final_neq_max_attempted_cex :
    (applyUpdates { status := .read, delivered_at := some 1, read_at := some 2 }
        [(3, MsgStatus.sent)]).status ≠ MsgStatus.sent := by
  decide

/-- C1 (amended): for an existing status record, every `updateMessageStatus`
call with a valid status is monotonically non-decreasing; a call whose
newStatus is ≤ the current stored status returns the record unchanged and
mutates nothing; and for any sequence of calls the final stored status
equals the maximum of the *initial* stored status and all attempted
newStatus values (hence the maximum of the attempted values whenever the
record starts at `sent`, the seeded initial status), independently of the
order of the calls. -/
theorem C1_updateMessageStatus_monotonic_max (r : StatusRecord)
    (calls : List (Nat × MsgStatus)) :
    (∀ now s, statusOrder r.status ≤ statusOrder (updateMessageStatus now r s).status)
    ∧ (∀ now s, statusOrder s ≤ statusOrder r.status → updateMessageStatus now r s = r)
    ∧ statusOrder (applyUpdates r calls).status
        = max (statusOrder r.status) (maxOrderOf (calls.map Prod.snd))
    ∧ (∀ calls', calls.Perm calls' →
        (applyUpdates r calls').status = (applyUpdates r calls).status) := by
  refine ⟨fun now s => statusOrder_le_updateMessageStatus now r s,
    fun now s h => updateMessageStatus_noop now r s h,
    applyUpdates_status_order r calls, fun calls' hp => ?_⟩
  apply statusOrder_inj
  rw [applyUpdates_status_order, applyUpdates_status_order,
    maxOrderOf_perm (hp.map Prod.snd)]

/-- C1 witness: a record seeded at `sent`, updated by `read` then
`delivered`, ends at the maximum (`read`) of the attempted values. -/
theorem C1_updateMessageStatus_monotonic_max_witness :
    statusOrder (applyUpdates { status := .sent, delivered_at := none, read_at := none }
        [(5, MsgStatus.read), (7, MsgStatus.delivered)]).status
      = max (statusOrder MsgStatus.sent)
          (maxOrderOf ([(5, MsgStatus.read), (7, MsgStatus.delivered)].map Prod.snd)) :=
  (C1_updateMessageStatus_monotonic_max
    { status := .sent, delivered_at := none, read_at := none }
    [(5, MsgStatus.read), (7, MsgStatus.delivered)]).2.2.1

/-- C3: for every message with at least one recipient status record,
`aggregateGroupStatus` returns `sent` if any recipient record is at `sent`;
otherwise `read` if every recipient record is at `read`; otherwise
`delivered`. -/
theorem C3_aggregateGroupStatus_spec (l : List MsgStatus) (h : l ≠ []) :
    ((∃ s ∈ l, s = MsgStatus.sent) → aggregateGroupStatus l = .sent)
    ∧ ((¬ ∃ s ∈ l, s = MsgStatus.sent) → (∀ s ∈ l, s = MsgStatus.read) →
        aggregateGroupStatus l = .read)
    ∧ ((¬ ∃ s ∈ l, s = MsgStatus.sent) → (¬ ∀ s ∈ l, s = MsgStatus.read) →
        aggregateGroupStatus l = .delivered) := by
  have hne : l.isEmpty = false := by
    cases l with
    | nil => exact absurd rfl h
    | cons a t => rfl
  refine ⟨fun hs => ?_, fun hns hall => ?_, fun hns hnall => ?_⟩
  · simp only [aggregateGroupStatus, hne, Bool.false_eq_true, if_false]
    rw [if_pos]
    simp only [List.any_eq_true, decide_eq_true_eq]
    exact hs
  · simp only [aggregateGroupStatus, hne, Bool.false_eq_true, if_false]
    rw [if_neg, if_pos]
    · simp only [List.all_eq_true, decide_eq_true_eq]
      exact hall
    · simp only [List.any_eq_true, decide_eq_true_eq]
      exact hns
  · simp only [aggregateGroupStatus, hne, Bool.false_eq_true, if_false]
    rw [if_neg, if_neg]
    · simp only [List.all_eq_true, decide_eq_true_eq]
      exact hnall
    · simp only [List.any_eq_true, decide_eq_true_eq]
      exact hns

/-- C3 witness: for recipients R1=delivered, R2=read the aggregate is
`delivered`. -/
theorem C3_aggregateGroupStatus_spec_witness :
    aggregateGroupStatus [MsgStatus.delivered, MsgStatus.read] = .delivered :=
  (C3_aggregateGroupStatus_spec [MsgStatus.delivered, MsgStatus.read]
      (by decide)).2.2 (by decide) (by decide)

/-! ## Database-level model of the status engine

`messages`, `message_status` and `user_settings` are the three tables the
read-receipt code touches.  `markMessagesAsRead` and the full
`updateMessageStatus` are modelled as pure functions from a database value
to an `Except` (a thrown `Error` becomes `.error`). -/

/-- A row of the `messages` table (the two columns the status engine
selects). -/
structure Message where
  id : String
  sender_id : String
deriving DecidableEq, Repr

/-- A row of the `message_status` table. -/
structure StatusRow where
  message_id : String
  user_id : String
  status : MsgStatus
  delivered_at : Option Nat
  read_at : Option Nat
deriving DecidableEq, Repr

/-- The tables consulted by the status engine.  A `user_settings` entry is
`(user_id, read_receipts_enabled)` where the column itself is nullable. -/
structure MsgDB where
  messages : List Message
  message_status : List StatusRow
  user_settings : List (String × Option Bool)
deriving DecidableEq, Repr

/-- `.from('user_settings').select('read_receipts_enabled').eq('user_id', userId).single()`:
the `read_receipts_enabled` column of the user's settings row, `none` when
no row exists. -/
def lookupSetting (db : MsgDB) (userId : String) : Option (Option Bool) :=
  (db.user_settings.find? (fun p => p.1 = userId)).map Prod.snd

/-- `settings?.read_receipts_enabled !== false`: true unless a settings row
exists whose `read_receipts_enabled` column is exactly `false`. -/
def readReceiptsEnabled (db : MsgDB) (userId : String) : Bool :=
  lookupSetting db userId ≠ some (some false)

/-- The filtered id list of `markMessagesAsRead`: ids of messages in
`messageIds` whose sender is not `userId`. -/
def validMessageIds (db : MsgDB) (userId : String) (messageIds : List String) : List String :=
  ((db.messages.filter (fun m => m.id ∈ messageIds)).filter
    (fun m => m.sender_id ≠ userId)).map (fun m => m.id)

/-- The row filter of the `markMessagesAsRead` UPDATE:
`.eq('user_id', userId).in('message_id', validMessageIds).in('status', ['sent','delivered'])`. -/
def markRowMatches (userId : String) (validIds : List String) (r : StatusRow) : Bool :=
  r.user_id = userId ∧ r.message_id ∈ validIds
    ∧ (r.status = .sent ∨ r.status = .delivered)

/-- The column assignment of the `markMessagesAsRead` UPDATE: `status`,
plus `read_at` when the target is `read` and `delivered_at` when the
target is `delivered`. -/
def applyMarkRow (target : MsgStatus) (now : Nat) (r : StatusRow) : StatusRow :=
  { r with
    status := target
    read_at := if target = .read then some now else r.read_at
    delivered_at := if target = .delivered then some now else r.delivered_at }

/-- Result of a successful `markMessagesAsRead` call: the mutated
database, the rows returned by `.select()` (the updated rows), and the
`readReceiptsEnabled` flag of the response. -/
structure MarkResult where
  db : MsgDB
  updated : List StatusRow
  readReceiptsEnabled : Bool
deriving DecidableEq, Repr

/-- `MessageService.markMessagesAsRead(userId, messageIds)`: rejects an
empty id list; filters out the caller's own messages and rejects when
nothing remains; reads the privacy setting; updates eligible rows
(user's rows for valid messages still at `sent` or `delivered`) to
`read`, or to `delivered` when read receipts are disabled. -/
def markMessagesAsRead (db : MsgDB) (now : Nat) (userId : String)
    (messageIds : List String) : Except String MarkResult :=
  if messageIds.isEmpty then .error "No message IDs provided"
  else
    let valid := validMessageIds db userId messageIds
    if valid.isEmpty then .error "Cannot mark own messages as read"
    else
      let enabled := readReceiptsEnabled db userId
      let target := if enabled then MsgStatus.read else MsgStatus.delivered
      let newRows := db.message_status.map
        (fun r => if markRowMatches userId valid r then applyMarkRow target now r else r)
      let updatedRows := (db.message_status.filter (markRowMatches userId valid)).map
        (applyMarkRow target now)
      Except.ok
        { db := { db with message_status := newRows }
          updated := updatedRows
          readReceiptsEnabled := enabled }

/-- `.from('message_status').select(...).eq('message_id', messageId).eq('user_id', userId).single()`. -/
def findStatusRow (db : MsgDB) (messageId userId : String) : Option StatusRow :=
  db.message_status.find? (fun r => r.message_id = messageId ∧ r.user_id = userId)

/-- `MessageService.updateMessageStatus` at database level: fetches the
current row; with an existing row, returns it unchanged when the new
status does not exceed it, else updates the row's `status` and the
timestamp column of the new status; with no row the final
`.update(...).single()` fails and the call throws. -/
def updateMessageStatusDB (db : MsgDB) (now : Nat) (messageId userId : String)
    (s : MsgStatus) : Except String (MsgDB × StatusRow) :=
  match findStatusRow db messageId userId with
  | none => .error "JSON object requested, multiple (or no) rows returned"
  | some cur =>
    if statusOrder s ≤ statusOrder cur.status then .ok (db, cur)
    else
      let upd : StatusRow → StatusRow := fun r =>
        { r with
          status := s
          delivered_at := if s = .delivered then some now else r.delivered_at
          read_at := if s = .read then some now else r.read_at }
      let newRows := db.message_status.map
        (fun r => if r.message_id = messageId ∧ r.user_id = userId then upd r else r)
      .ok ({ db with message_status := newRows }, upd cur)

theorem markRowMatches_of_read (u : String) (ids : List String) (r : StatusRow)
    (h : r.status = .read) : markRowMatches u ids r = false := by
  simp [markRowMatches, h]

/-- Database with one message `m1` from `u1`, a seeded status row for
recipient `u2`, and `u2`'s read receipts disabled. -/
def dbDisabled : MsgDB :=
  ⟨[⟨"m1", "u1"⟩], [⟨"m1", "u2", .sent, none, none⟩], [("u2", some false)]⟩

/-- C2 (counterexample): starting from a freshly seeded record for
(`m1`,`u2`), `updateMessageStatus(…,'delivered')` at time 5 sets
`delivered_at = 5`; a subsequent `markMessagesAsRead` by `u2` (whose read
receipts are disabled) at time 9 matches the record (its status
`delivered` is in `['sent','delivered']`) and rewrites
`delivered_at = 9`.  The `deliveredAt` timestamp is therefore written
twice and overwritten after being set, contradicting the claim. -/
theorem C2_deliveredAt_overwritten_cex :
    (updateMessageStatusDB dbDisabled 5 "m1" "u2" .delivered).toOption.map
        (fun p => (findStatusRow p.1 "m1" "u2").map StatusRow.delivered_at)
      = some (some (some 5))
    ∧ ((updateMessageStatusDB dbDisabled 5 "m1" "u2" .delivered).toOption.bind
        (fun p => (markMessagesAsRead p.1 9 "u2" ["m1"]).toOption)).map
        (fun o => (findStatusRow o.db "m1" "u2").map StatusRow.delivered_at)
      = some (some (some 9)) := by
  decide

/-- C2 (amended): for a status record satisfying the reachability
invariants (`read_at` is only set at status `read`; `delivered_at` is only
set at status `delivered` or above), `updateMessageStatus` never
overwrites a set `delivered_at` or `read_at` and writes each timestamp
exactly at the first transition to the corresponding status; and
`markMessagesAsRead` never touches rows already at `read`, so `read_at`,
once set, is never overwritten by either operation.  (`delivered_at`,
however, can be overwritten by `markMessagesAsRead` when read receipts
are disabled — see the counterexample.) -/
theorem C2_timestamps_write_once_amended (r : StatusRecord)
    (hr : r.read_at ≠ none → r.status = .read)
    (hd : r.delivered_at ≠ none → 1 ≤ statusOrder r.status) :
    (∀ now s, r.delivered_at ≠ none →
      (updateMessageStatus now r s).delivered_at = r.delivered_at)
    ∧ (∀ now s, r.read_at ≠ none → (updateMessageStatus now r s).read_at = r.read_at)
    ∧ (∀ now, r.status = .sent → (updateMessageStatus now r .delivered).delivered_at = some now)
    ∧ (∀ now, r.status ≠ .read → (updateMessageStatus now r .read).read_at = some now)
    ∧ (∀ db now u ids out, markMessagesAsRead db now u ids = Except.ok out →
        out.db.message_status.length = db.message_status.length
        ∧ ∀ i hi hi', (db.message_status.get ⟨i, hi⟩).status = .read →
            out.db.message_status.get ⟨i, hi'⟩ = db.message_status.get ⟨i, hi⟩) := by
  refine ⟨fun now s h => ?_, fun now s h => ?_, fun now h => ?_, fun now h => ?_,
    fun db now u ids out h => ?_⟩
  · have h1 := hd h
    unfold updateMessageStatus
    split
    · rfl
    · have hs : s ≠ .delivered := by
        intro he
        subst he
        simp [statusOrder] at *
        omega
      simp [hs]
  · have h1 := hr h
    rw [updateMessageStatus_noop]
    rw [h1]
    cases s <;> simp [statusOrder]
  · unfold updateMessageStatus
    rw [h]
    simp [statusOrder]
  · unfold updateMessageStatus
    have : ¬ statusOrder MsgStatus.read ≤ statusOrder r.status := by
      cases hs : r.status <;> simp_all [statusOrder]
    simp [this]
  · simp only [markMessagesAsRead] at h
    split at h
    · exact absurd h (by simp)
    · split at h
      · exact absurd h (by simp)
      · simp only [Except.ok.injEq] at h
        subst h
        refine ⟨by simp, fun i hi hi' hread => ?_⟩
        simp only [List.get_eq_getElem, List.getElem_map,
          markRowMatches_of_read _ _ _ (by simpa using hread), Bool.false_eq_true, if_false]

/-- C2 witness: a record at `delivered` with `delivered_at = 5` keeps
`delivered_at = 5` across a further `updateMessageStatus('delivered')`
call. -/
theorem C2_timestamps_write_once_amended_witness :
    (updateMessageStatus 9 { status := .delivered, delivered_at := some 5, read_at := none }
      MsgStatus.delivered).delivered_at = some 5 :=
  (C2_timestamps_write_once_amended
    { status := .delivered, delivered_at := some 5, read_at := none }
    (fun h => absurd rfl h) (fun _ => by decide)).1 9 .delivered (by decide)

/-- C4: when `markMessagesAsRead` succeeds, the returned
`readReceiptsEnabled` flag reflects the caller's setting; if the setting
row says `false` the flag is `false` and every updated (eligible) row is
stored at `delivered` (not `read`) with `delivered_at = now`; if no
settings row exists the setting defaults to enabled, the flag is `true`
and every updated row is stored at `read` with `read_at = now`; and every
eligible row of the database is rewritten with the target status in the
stored table. -/
theorem C4_privacy_downgrade (db : MsgDB) (now : Nat) (userId : String)
    (messageIds : List String) (out : MarkResult)
    (h : markMessagesAsRead db now userId messageIds = Except.ok out) :
    out.readReceiptsEnabled = readReceiptsEnabled db userId
    ∧ (lookupSetting db userId = some (some false) →
        out.readReceiptsEnabled = false
        ∧ ∀ r ∈ out.updated, r.status = .delivered ∧ r.delivered_at = some now)
    ∧ (lookupSetting db userId = none →
        out.readReceiptsEnabled = true
        ∧ ∀ r ∈ out.updated, r.status = .read ∧ r.read_at = some now)
    ∧ (∀ r ∈ db.message_status,
        markRowMatches userId (validMessageIds db userId messageIds) r →
        applyMarkRow (if readReceiptsEnabled db userId then MsgStatus.read else .delivered)
            now r ∈ out.db.message_status) := by
  simp only [markMessagesAsRead] at h
  split at h
  · exact absurd h (by simp)
  · split at h
    · exact absurd h (by simp)
    · simp only [Except.ok.injEq] at h
      subst h
      refine ⟨rfl, fun hset => ?_, fun hset => ?_, fun r hr hm => ?_⟩
      · have he : readReceiptsEnabled db userId = false := by
          simp [readReceiptsEnabled, hset]
        refine ⟨he, fun r hr => ?_⟩
        simp only [he, Bool.false_eq_true, if_false, List.mem_map] at hr
        obtain ⟨r', -, rfl⟩ := hr
        simp [applyMarkRow]
      · have he : readReceiptsEnabled db userId = true := by
          simp [readReceiptsEnabled, hset]
        refine ⟨he, fun r hr => ?_⟩
        simp only [he, if_true, List.mem_map] at hr
        obtain ⟨r', -, rfl⟩ := hr
        simp [applyMarkRow]
      · simp only [List.mem_map]
        exact ⟨r, hr, by rw [if_pos hm]⟩

/-- Result of the C4 witness call on `dbDisabled`. -/
def dbDisabledOut : MarkResult :=
  (markMessagesAsRead dbDisabled 9 "u2" ["m1"]).toOption.getD ⟨dbDisabled, [], true⟩

/-- C4 witness: marking `m1` as read as `u2` (receipts disabled) returns
the flag `false`. -/
theorem C4_privacy_downgrade_witness : dbDisabledOut.readReceiptsEnabled = false :=
  ((C4_privacy_downgrade dbDisabled 9 "u2" ["m1"] dbDisabledOut rfl).2.1 rfl).1

/-- C5: when `userId` is the sender of every message in `messageIds`
(nonempty), the filtered eligible set is empty and `markMessagesAsRead`
fails with the whole-batch rejection `'Cannot mark own messages as read'`;
the error is thrown before the UPDATE runs, so no `message_status` row is
mutated. -/
theorem C5_self_read_rejected (db : MsgDB) (now : Nat) (userId : String)
    (messageIds : List String) (hne : messageIds ≠ [])
    (hall : ∀ m ∈ db.messages, m.id ∈ messageIds → m.sender_id = userId) :
    markMessagesAsRead db now userId messageIds
      = Except.error "Cannot mark own messages as read" := by
  have h0 : messageIds.isEmpty = false := by
    cases messageIds with
    | nil => exact absurd rfl hne
    | cons a t => rfl
  have h1 : validMessageIds db userId messageIds = [] := by
    unfold validMessageIds
    rw [List.map_eq_nil_iff, List.filter_eq_nil_iff]
    intro m hm
    have hm' := List.mem_filter.mp hm
    simp only [decide_eq_true_eq] at hm' ⊢
    intro hcon
    exact hcon (hall m hm'.1 hm'.2)
  simp [markMessagesAsRead, h0, h1]

/-- C5 witness: `u1` attempting to mark their own message `m1` as read is
rejected. -/
theorem C5_self_read_rejected_witness :
    markMessagesAsRead ⟨[⟨"m1", "u1"⟩], [⟨"m1", "u2", .sent, none, none⟩], []⟩ 5 "u1" ["m1"]
      = Except.error "Cannot mark own messages as read" :=
  C5_self_read_rejected _ 5 "u1" ["m1"] (by decide) (by decide)

/-! ## Presence tracker (PresenceTracker)

The Redis store is modelled as an association list from user id to the
JSON presence blob stored under `presence:{userId}`.  `setex` (write with
TTL) is modelled as a keyed update; TTL expiry itself is not modelled. -/

/-- Device status `'ONLINE' | 'OFFLINE'`. -/
inductive PStatus where
  | online
  | offline
deriving DecidableEq, Repr

/-- One entry of `presenceData.devices`. -/
structure DeviceRecord where
  socketId : String
  deviceId : String
  status : PStatus
  activeChatId : Option String
  lastHeartbeat : Nat
deriving DecidableEq, Repr

/-- The per-user presence blob. -/
structure PresenceData where
  status : PStatus
  devices : List DeviceRecord
  lastSeen : Nat
deriving DecidableEq, Repr

/-- The keyed store: user id to presence blob. -/
abbrev Store := List (String × PresenceData)

/-- `redis.get(presenceKey userId)`. -/
def lookup (store : Store) (userId : String) : Option PresenceData :=
  (store.find? (fun p => p.1 = userId)).map Prod.snd

/-- `redis.setex(presenceKey k, TTL, v)`: overwrite the value at key `k`
(first occurrence), or add it. -/
def setKey : Store → String → PresenceData → Store
  | [], k, v => [(k, v)]
  | (k', v') :: rest, k, v =>
    if k' = k then (k, v) :: rest else (k', v') :: setKey rest k v

/-- `PresenceTracker.getPresence`. -/
def getPresence (store : Store) (userId : String) : Option PresenceData :=
  lookup store userId

/-- The device-array update of `setOnline`: `findIndex` on `deviceId`,
replace the first matching entry in place, else push at the end. -/
def upsertDevice (dev : DeviceRecord) : List DeviceRecord → List DeviceRecord
  | [] => [dev]
  | d :: rest =>
    if d.deviceId = dev.deviceId then dev :: rest else d :: upsertDevice dev rest

/-- The presence blob written by `setOnline`: existing blob (or a fresh
one), device upserted as ONLINE with no active chat and a fresh
heartbeat, overall status forced ONLINE, `lastSeen` refreshed. -/
def setOnlineData (existing : Option PresenceData) (now : Nat)
    (socketId deviceId : String) : PresenceData :=
  let presenceData := match existing with
    | some p => p
    | none => { status := .online, devices := [], lastSeen := now }
  let devicePresence : DeviceRecord :=
    { socketId := socketId, deviceId := deviceId, status := .online,
      activeChatId := none, lastHeartbeat := now }
  { status := .online
    devices := upsertDevice devicePresence presenceData.devices
    lastSeen := now }

/-- `PresenceTracker.setOnline(userId, socketId, deviceId)`. -/
def setOnline (store : Store) (now : Nat) (userId socketId deviceId : String) : Store :=
  setKey store userId (setOnlineData (lookup store userId) now socketId deviceId)

/-- The device-array update of `setOffline`: `findIndex` on `socketId`,
mark the first matching entry OFFLINE and clear its `activeChatId`. -/
def markOffline (socketId : String) : List DeviceRecord → List DeviceRecord
  | [] => []
  | d :: rest =>
    if d.socketId = socketId then
      { d with status := .offline, activeChatId := none } :: rest
    else d :: markOffline socketId rest

/-- The presence blob written by `setOffline` when a blob exists:
matching device marked OFFLINE, `lastSeen` refreshed only when a device
matched, overall status ONLINE iff any device is still ONLINE. -/
def setOfflineData (p : PresenceData) (now : Nat) (socketId : String) : PresenceData :=
  let found := p.devices.any (fun d => d.socketId = socketId)
  let devices := markOffline socketId p.devices
  { status := if devices.any (fun d => d.status = .online) then PStatus.online else .offline
    devices := devices
    lastSeen := if found then now else p.lastSeen }

/-- `PresenceTracker.setOffline(userId, socketId)`: no-op when no
presence blob exists. -/
def setOffline (store : Store) (now : Nat) (userId socketId : String) : Store :=
  match lookup store userId with
  | none => store
  | some p => setKey store userId (setOfflineData p now socketId)

/-- The presence blob written by `setActiveChat`: `activeChatId` set on
every ONLINE device, `lastSeen` refreshed, overall status untouched. -/
def setActiveChatData (p : PresenceData) (now : Nat)
    (conversationId : Option String) : PresenceData :=
  { p with
    devices := p.devices.map
      (fun d => if d.status = .online then { d with activeChatId := conversationId } else d)
    lastSeen := now }

/-- `PresenceTracker.setActiveChat(userId, conversationId | null)`: no-op
when no presence blob exists. -/
def setActiveChat (store : Store) (now : Nat) (userId : String)
    (conversationId : Option String) : Store :=
  match lookup store userId with
  | none => store
  | some p => setKey store userId (setActiveChatData p now conversationId)

/-- `PresenceTracker.hasActiveChatOpen(userId, conversationId)`: true iff
some ONLINE device has the conversation open. -/
def hasActiveChatOpen (store : Store) (userId conversationId : String) : Bool :=
  match getPresence store userId with
  | none => false
  | some p => p.devices.any
      (fun d => d.status = .online ∧ d.activeChatId = some conversationId)

/-- `this.HEARTBEAT_TIMEOUT = 30000` milliseconds. -/
def HEARTBEAT_TIMEOUT : Nat := 30000

/-- The sweep's per-device test: ONLINE and
`now - lastHeartbeat > HEARTBEAT_TIMEOUT`. -/
def deviceTimedOut (now : Nat) (d : DeviceRecord) : Bool :=
  d.status = .online ∧ HEARTBEAT_TIMEOUT + d.lastHeartbeat < now

/-- The sweep's per-device transition: timed-out devices become OFFLINE
with `activeChatId` cleared; all others are untouched. -/
def sweepDevice (now : Nat) (d : DeviceRecord) : DeviceRecord :=
  if deviceTimedOut now d then { d with status := .offline, activeChatId := none } else d

/-- One record of the sweep of `checkHeartbeatTimeouts`: process every
device; when at least one device transitioned, recompute the overall
status, refresh `lastSeen` and persist; otherwise leave the record
untouched.  Returns the new blob and the number of devices
transitioned. -/
def sweepRecord (now : Nat) (p : PresenceData) : PresenceData × Nat :=
  let cnt := p.devices.countP (deviceTimedOut now)
  if 0 < cnt then
    let devices := p.devices.map (sweepDevice now)
    ({ status := if devices.any (fun d => d.status = .online) then PStatus.online else .offline
       devices := devices
       lastSeen := now }, cnt)
  else (p, 0)

/-- `PresenceTracker.checkHeartbeatTimeouts()`: sweep every stored
presence record, returning the updated store and the total number of
devices marked offline. -/
def checkHeartbeatTimeouts (store : Store) (now : Nat) : Store × Nat :=
  match store with
  | [] => ([], 0)
  | (k, p) :: rest =>
    let r := sweepRecord now p
    let rr := checkHeartbeatTimeouts rest now
    ((k, r.1) :: rr.1, r.2 + rr.2)

theorem lookup_setKey_self (store : Store) (k : String) (v : PresenceData) :
    lookup (setKey store k v) k = some v := by
  induction store with
  | nil => simp [setKey, lookup, List.find?]
  | cons kv rest ih =>
    obtain ⟨k', v'⟩ := kv
    by_cases h : k' = k
    · subst h
      simp [setKey, lookup, List.find?]
    · simp [setKey, h, lookup, List.find?] at *
      exact ih

theorem countP_upsertDevice (dev : DeviceRecord) (ds : List DeviceRecord) (did : String)
    (hdev : dev.deviceId = did)
    (h : ds.countP (fun x => x.deviceId = did) ≤ 1) :
    (upsertDevice dev ds).countP (fun x => x.deviceId = did) = 1 := by
  subst hdev
  induction ds with
  | nil => simp [upsertDevice]
  | cons d rest ih =>
    by_cases hd : d.deviceId = dev.deviceId
    · rw [show upsertDevice dev (d :: rest) = dev :: rest by rw [upsertDevice, if_pos hd]]
      simp only [List.countP_cons, hd, decide_True, if_true] at h
      have h0 : rest.countP (fun x => x.deviceId = dev.deviceId) = 0 := by omega
      simp [List.countP_cons, h0]
    · rw [show upsertDevice dev (d :: rest) = d :: upsertDevice dev rest by
        rw [upsertDevice, if_neg hd]]
      simp only [List.countP_cons, hd, decide_False, if_false, Nat.add_zero] at h ⊢
      exact ih h

theorem mem_upsertDevice (dev : DeviceRecord) (ds : List DeviceRecord) (did : String)
    (hdev : dev.deviceId = did)
    (h : ds.countP (fun x => x.deviceId = did) ≤ 1) :
    ∀ x ∈ upsertDevice dev ds, x.deviceId = did → x = dev := by
  subst hdev
  induction ds with
  | nil =>
    intro x hx _
    simpa [upsertDevice] using hx
  | cons d rest ih =>
    intro x hx hxid
    by_cases hd : d.deviceId = dev.deviceId
    · simp only [upsertDevice, if_pos hd, List.mem_cons] at hx
      rcases hx with rfl | hx
      · rfl
      · exfalso
        simp only [List.countP_cons, hd, decide_True, if_true] at h
        have h0 : rest.countP (fun x => x.deviceId = dev.deviceId) = 0 := by omega
        have := List.countP_eq_zero.mp h0 x hx
        simp [hxid] at this
    · simp only [upsertDevice, if_neg hd, List.mem_cons] at hx
      rcases hx with rfl | hx
      · exact absurd hxid hd
      · refine ih ?_ x hx hxid
        simp only [List.countP_cons, hd, decide_False, if_false, Nat.add_zero] at h
        exact h

theorem length_upsertDevice_of_mem (dev : DeviceRecord) (ds : List DeviceRecord) (did : String)
    (hdev : dev.deviceId = did)
    (h : ∃ x ∈ ds, x.deviceId = did) :
    (upsertDevice dev ds).length = ds.length := by
  subst hdev
  induction ds with
  | nil => simp at h
  | cons d rest ih =>
    by_cases hd : d.deviceId = dev.deviceId
    · simp [upsertDevice, hd]
    · simp only [upsertDevice, if_neg hd, List.length_cons]
      rcases h with ⟨x, hx, hxid⟩
      rcases List.mem_cons.mp hx with rfl | hx
      · exact absurd hxid hd
      · rw [ih ⟨x, hx, hxid⟩]

theorem upsertDevice_split (dev old : DeviceRecord) (pre post : List DeviceRecord)
    (did : String) (hdev : dev.deviceId = did)
    (hpre : ∀ x ∈ pre, x.deviceId ≠ did) (hold : old.deviceId = did) :
    upsertDevice dev (pre ++ old :: post) = pre ++ dev :: post := by
  subst hdev
  induction pre with
  | nil => simp [upsertDevice, hold]
  | cons d rest ih =>
    have hd : d.deviceId ≠ dev.deviceId := hpre d (List.mem_cons_self d rest)
    simp only [List.cons_append, upsertDevice, if_neg hd, List.append_eq]
    rw [ih (fun x hx => hpre x (List.mem_cons_of_mem d hx))]

theorem setOnlineData_devices (existing : Option PresenceData) (now : Nat)
    (c d : String) :
    (setOnlineData existing now c d).devices
      = upsertDevice ⟨c, d, .online, none, now⟩
          (match existing with | some p => p.devices | none => []) := by
  cases existing <;> rfl

theorem markOffline_id (c : String) (ds : List DeviceRecord)
    (h : ∀ x ∈ ds, x.socketId ≠ c) : markOffline c ds = ds := by
  induction ds with
  | nil => rfl
  | cons d rest ih =>
    have hd : d.socketId ≠ c := h d (List.mem_cons_self d rest)
    simp only [markOffline, if_neg hd]
    rw [ih (fun x hx => h x (List.mem_cons_of_mem d hx))]

theorem markOffline_split (c : String) (old : DeviceRecord) (pre post : List DeviceRecord)
    (hpre : ∀ x ∈ pre, x.socketId ≠ c) (hold : old.socketId = c) :
    markOffline c (pre ++ old :: post)
      = pre ++ ({ old with status := .offline, activeChatId := none }) :: post := by
  induction pre with
  | nil => simp [markOffline, hold]
  | cons d rest ih =>
    have hd : d.socketId ≠ c := hpre d (List.mem_cons_self d rest)
    simp only [List.cons_append, markOffline, if_neg hd, List.append_eq]
    rw [ih (fun x hx => hpre x (List.mem_cons_of_mem d hx))]

/-- C6: assuming the invariant that a stored presence record has at most
one device entry per deviceId, immediately after `setOnline(u, c, d)` the
result of `getPresence(u)` is a record whose devices contain exactly one
entry with deviceId `d`; that entry is ONLINE with connectionId `c` and a
fresh (non-null) `lastHeartbeat`; the record's overall status is ONLINE
and `lastSeen` is refreshed (non-null); and a second `setOnline` with the
same deviceId replaces the entry in place (device count unchanged) rather
than appending. -/
theorem C6_setOnline_presence (store : Store) (now now2 : Nat) (u c c2 d : String)
    (hinv : ∀ p, lookup store u = some p →
      p.devices.countP (fun x => x.deviceId = d) ≤ 1) :
    getPresence (setOnline store now u c d) u
        = some (setOnlineData (lookup store u) now c d)
    ∧ (setOnlineData (lookup store u) now c d).devices.countP (fun x => x.deviceId = d) = 1
    ∧ (∀ dev ∈ (setOnlineData (lookup store u) now c d).devices, dev.deviceId = d →
        dev.status = .online ∧ dev.socketId = c ∧ dev.lastHeartbeat = now
          ∧ dev.activeChatId = none)
    ∧ (setOnlineData (lookup store u) now c d).status = .online
    ∧ (setOnlineData (lookup store u) now c d).lastSeen = now
    ∧ (∀ p2, getPresence (setOnline (setOnline store now u c d) now2 u c2 d) u = some p2 →
        p2.devices.length = (setOnlineData (lookup store u) now c d).devices.length) := by
  have h1 : getPresence (setOnline store now u c d) u
      = some (setOnlineData (lookup store u) now c d) :=
    lookup_setKey_self store u _
  have hbase := setOnlineData_devices (lookup store u) now c d
  have hle : ((match lookup store u with
      | some p => p.devices
      | none => []) : List DeviceRecord).countP
        (fun x => x.deviceId = d) ≤ 1 := by
    cases hlu : lookup store u with
    | none => simp
    | some p => exact hinv p hlu
  have hcnt : (setOnlineData (lookup store u) now c d).devices.countP
      (fun x => x.deviceId = d) = 1 := by
    rw [hbase]
    exact countP_upsertDevice _ _ d rfl hle
  refine ⟨h1, hcnt, ?_, rfl, rfl, ?_⟩
  · intro dev hdev hdevid
    rw [hbase] at hdev
    have hx := mem_upsertDevice _ _ d rfl hle dev hdev hdevid
    rw [hx]
    exact ⟨rfl, rfl, rfl, rfl⟩
  · intro p2 hp2
    have h2 : getPresence (setOnline (setOnline store now u c d) now2 u c2 d) u
        = some (setOnlineData (lookup (setOnline store now u c d) u) now2 c2 d) :=
      lookup_setKey_self _ u _
    rw [h2] at hp2
    injection hp2 with hp2
    subst hp2
    have hl1 : lookup (setOnline store now u c d) u
        = some (setOnlineData (lookup store u) now c d) := h1
    rw [hl1]
    have hex : ∃ x ∈ (setOnlineData (lookup store u) now c d).devices, x.deviceId = d := by
      have hpos : 0 < (setOnlineData (lookup store u) now c d).devices.countP
          (fun x => x.deviceId = d) := by omega
      obtain ⟨x, hx, hxp⟩ := List.countP_pos_iff.mp hpos
      exact ⟨x, hx, by simpa using hxp⟩
    rw [setOnlineData_devices]
    exact length_upsertDevice_of_mem _ _ d rfl hex



/-- C6 witness: `setOnline` on an empty store creates the presence
record. -/
theorem C6_witness :
    getPresence (setOnline [] 5 "u" "c" "d") "u"
      = some (setOnlineData (lookup [] "u") 5 "c" "d") :=
  (C6_setOnline_presence [] 5 6 "u" "c" "c2" "d"
    (by intro p hp; simp [lookup, List.find?] at hp)).1

/-- C7: for a presence record with at least two devices,
`setOffline(userId, connectionId)` marks OFFLINE and clears `activeChatId`
on only the (unique first) device whose connectionId matches, leaves every
other device entry unchanged (the split form keeps the prefix and suffix
intact), and sets the record's aggregate status to ONLINE iff at least one
device remains ONLINE; when no presence record exists the call returns the
store unchanged (a no-op, and the model is a total function, so it cannot
throw). -/
theorem C7_setOffline_frame (store : Store) (now : Nat) (u c : String) :
    (lookup store u = none → setOffline store now u c = store)
    ∧ (∀ p, lookup store u = some p → 2 ≤ p.devices.length →
        lookup (setOffline store now u c) u = some (setOfflineData p now c)
        ∧ ((∀ x ∈ p.devices, x.socketId ≠ c) → (setOfflineData p now c).devices = p.devices)
        ∧ (∀ pre old post, p.devices = pre ++ old :: post →
            (∀ x ∈ pre, x.socketId ≠ c) → old.socketId = c →
            (setOfflineData p now c).devices
              = pre ++ ({ old with status := .offline, activeChatId := none }) :: post)
        ∧ ((setOfflineData p now c).status = .online
            ↔ ∃ x ∈ (setOfflineData p now c).devices, x.status = .online)) := by
  constructor
  · intro hnone
    unfold setOffline
    rw [hnone]
  · intro p hp hN
    have hdev : (setOfflineData p now c).devices = markOffline c p.devices := rfl
    refine ⟨?_, ?_, ?_, ?_⟩
    · unfold setOffline
      rw [hp]
      exact lookup_setKey_self store u _
    · intro hnomatch
      rw [hdev]
      exact markOffline_id c p.devices hnomatch
    · intro pre old post hsplit hpre hold
      rw [hdev, hsplit]
      exact markOffline_split c old pre post hpre hold
    · have hst : (setOfflineData p now c).status
          = if (markOffline c p.devices).any (fun x => x.status = .online) then PStatus.online
            else .offline := rfl
      rw [hst, hdev]
      by_cases hany : (markOffline c p.devices).any (fun x => x.status = .online) = true
      · simp only [hany, if_true, true_iff]
        obtain ⟨x, hx, hxs⟩ := List.any_eq_true.mp hany
        exact ⟨x, hx, by simpa using hxs⟩
      · simp only [Bool.not_eq_true] at hany
        simp only [hany, Bool.false_eq_true, if_false]
        constructor
        · intro hcon
          exact absurd hcon (by decide)
        · intro hcon
          obtain ⟨x, hx, hxs⟩ := hcon
          rw [List.any_eq_false] at hany
          exact absurd hxs (by simpa using hany x hx)

/-- C7 witness: disconnecting one of two online devices rewrites the
user's presence record. -/
theorem C7_witness :
    lookup (setOffline [("u", ⟨.online, [⟨"s1", "d1", .online, some "chat", 1⟩,
        ⟨"s2", "d2", .online, none, 2⟩], 3⟩)] 9 "u" "s1") "u"
      = some (setOfflineData ⟨.online, [⟨"s1", "d1", .online, some "chat", 1⟩,
        ⟨"s2", "d2", .online, none, 2⟩], 3⟩ 9 "s1") :=
  ((C7_setOffline_frame [("u", ⟨.online, [⟨"s1", "d1", .online, some "chat", 1⟩,
        ⟨"s2", "d2", .online, none, 2⟩], 3⟩)] 9 "u" "s1").2
    ⟨.online, [⟨"s1", "d1", .online, some "chat", 1⟩, ⟨"s2", "d2", .online, none, 2⟩], 3⟩
    rfl (by decide)).1

/-- C10: `setOnline(u, c, d)` for a deviceId `d` already present replaces
the whole device entry with a fresh one — status ONLINE, connectionId `c`,
`activeChatId = null` and `lastHeartbeat = now` — so a reconnect of the
same device loses any previously set `activeChatId`, even if the old entry
was still ONLINE with a chat open. -/
theorem C10_setOnline_resets_device (store : Store) (now : Nat) (u c d : String)
    (p : PresenceData) (pre post : List DeviceRecord) (old : DeviceRecord)
    (hp : lookup store u = some p)
    (hsplit : p.devices = pre ++ old :: post)
    (hold : old.deviceId = d)
    (hpre : ∀ x ∈ pre, x.deviceId ≠ d) :
    getPresence (setOnline store now u c d) u
      = some { status := .online
               devices := pre ++ (⟨c, d, .online, none, now⟩ : DeviceRecord) :: post
               lastSeen := now } := by
  have h1 : getPresence (setOnline store now u c d) u
      = some (setOnlineData (lookup store u) now c d) := lookup_setKey_self store u _
  rw [h1, hp]
  have hdevs : upsertDevice ⟨c, d, .online, none, now⟩ p.devices
      = pre ++ (⟨c, d, .online, none, now⟩ : DeviceRecord) :: post := by
    rw [hsplit]
    exact upsertDevice_split _ old pre post d rfl hpre hold
  rw [show setOnlineData (some p) now c d
      = { status := .online, devices := upsertDevice ⟨c, d, .online, none, now⟩ p.devices,
          lastSeen := now } from rfl, hdevs]

/-- C10 witness: a reconnect of device `d` (old entry ONLINE with
`activeChatId = "chat"`) yields a record whose only entry has
`activeChatId = none`. -/
theorem C10_witness :
    getPresence (setOnline [("u", ⟨.online, [⟨"s1", "d", .online, some "chat", 1⟩], 1⟩)]
        9 "u" "s2" "d") "u"
      = some { status := .online
               devices := [] ++ (⟨"s2", "d", .online, none, 9⟩ : DeviceRecord) :: []
               lastSeen := 9 } :=
  C10_setOnline_resets_device _ 9 "u" "s2" "d"
    ⟨.online, [⟨"s1", "d", .online, some "chat", 1⟩], 1⟩ [] []
    ⟨"s1", "d", .online, some "chat", 1⟩ rfl rfl rfl (by simp)



/-- The sweep's per-record count equals the number of timed-out
devices. -/
theorem sweepRecord_snd (now : Nat) (p : PresenceData) :
    (sweepRecord now p).2 = p.devices.countP (deviceTimedOut now) := by
  unfold sweepRecord
  by_cases h : 0 < p.devices.countP (deviceTimedOut now)
  · simp [h]
  · simp only [h, if_false]
    omega

/-- The sweep maps every stored record through `sweepRecord`. -/
theorem checkHeartbeatTimeouts_fst (store : Store) (now : Nat) :
    (checkHeartbeatTimeouts store now).1
      = store.map (fun kp => (kp.1, (sweepRecord now kp.2).1)) := by
  induction store with
  | nil => rfl
  | cons kp rest ih =>
    obtain ⟨k, p⟩ := kp
    simp [checkHeartbeatTimeouts, ih]

/-- The sweep's total count is the sum of the per-record counts. -/
theorem checkHeartbeatTimeouts_snd (store : Store) (now : Nat) :
    (checkHeartbeatTimeouts store now).2
      = (store.map (fun kp => kp.2.devices.countP (deviceTimedOut now))).sum := by
  induction store with
  | nil => rfl
  | cons kp rest ih =>
    obtain ⟨k, p⟩ := kp
    simp [checkHeartbeatTimeouts, ih, sweepRecord_snd]

/-- C8: one sweep of `checkHeartbeatTimeouts` maps every stored record
through the per-record sweep; it transitions to OFFLINE (clearing
`activeChatId`) exactly those devices that are ONLINE with more than
30000 ms elapsed since `lastHeartbeat`, leaves ONLINE devices with fresh
heartbeats and OFFLINE devices unchanged; a record none of whose devices
timed out is returned untouched (not persisted); a record with a timeout
gets its devices swept, its aggregate status recomputed (ONLINE iff some
device remains ONLINE) and its `lastSeen` refreshed; and the returned
count is the total number of devices transitioned. -/
theorem C8_heartbeat_sweep (store : Store) (now : Nat) :
    (checkHeartbeatTimeouts store now).1
      = store.map (fun kp => (kp.1, (sweepRecord now kp.2).1))
    ∧ (checkHeartbeatTimeouts store now).2
      = (store.map (fun kp => kp.2.devices.countP (deviceTimedOut now))).sum
    ∧ (∀ p : PresenceData, p.devices.countP (deviceTimedOut now) = 0 →
        sweepRecord now p = (p, 0))
    ∧ (∀ p : PresenceData, 0 < p.devices.countP (deviceTimedOut now) →
        (sweepRecord now p).1.devices = p.devices.map (sweepDevice now)
        ∧ (sweepRecord now p).2 = p.devices.countP (deviceTimedOut now)
        ∧ (sweepRecord now p).1.lastSeen = now
        ∧ ((sweepRecord now p).1.status = .online
            ↔ ∃ x ∈ (sweepRecord now p).1.devices, x.status = .online))
    ∧ (∀ dv : DeviceRecord,
        (dv.status = .online → HEARTBEAT_TIMEOUT + dv.lastHeartbeat < now →
          sweepDevice now dv = { dv with status := .offline, activeChatId := none })
        ∧ (dv.status = .online → ¬ HEARTBEAT_TIMEOUT + dv.lastHeartbeat < now →
          sweepDevice now dv = dv)
        ∧ (dv.status = .offline → sweepDevice now dv = dv)) := by
  refine ⟨checkHeartbeatTimeouts_fst store now, checkHeartbeatTimeouts_snd store now,
    fun p h => ?_, fun p h => ?_, fun dv => ⟨fun h1 h2 => ?_, fun h1 h2 => ?_, fun h1 => ?_⟩⟩
  · simp [sweepRecord, h]
  · refine ⟨by simp [sweepRecord, h], sweepRecord_snd now p, by simp [sweepRecord, h], ?_⟩
    have hdevs : (sweepRecord now p).1.devices = p.devices.map (sweepDevice now) := by
      simp [sweepRecord, h]
    have hst : (sweepRecord now p).1.status
        = if (p.devices.map (sweepDevice now)).any (fun x => x.status = .online)
          then PStatus.online else .offline := by
      simp [sweepRecord, h]
    rw [hst, hdevs]
    by_cases hany : (p.devices.map (sweepDevice now)).any (fun x => x.status = .online) = true
    · simp only [hany, if_true, true_iff]
      obtain ⟨x, hx, hxs⟩ := List.any_eq_true.mp hany
      exact ⟨x, hx, by simpa using hxs⟩
    · simp only [Bool.not_eq_true] at hany
      simp only [hany, Bool.false_eq_true, if_false]
      constructor
      · intro hcon
        exact absurd hcon (by decide)
      · intro hcon
        obtain ⟨x, hx, hxs⟩ := hcon
        rw [List.any_eq_false] at hany
        exact absurd hxs (by simpa using hany x hx)
  · simp [sweepDevice, deviceTimedOut, h1, h2]
  · simp [sweepDevice, deviceTimedOut, h1, h2]
  · simp [sweepDevice, deviceTimedOut, h1]

/-- C8 witness: a single record whose one ONLINE device is 40000 ms
stale yields a transition count of one (the counted sum). -/
theorem C8_witness :
    (checkHeartbeatTimeouts [("u", ⟨.online, [⟨"s", "d", .online, none, 0⟩], 0⟩)] 40000).2
      = ([("u", (⟨.online, [⟨"s", "d", .online, none, 0⟩], 0⟩ : PresenceData))].map
          (fun kp => kp.2.devices.countP (deviceTimedOut 40000))).sum :=
  (C8_heartbeat_sweep [("u", ⟨.online, [⟨"s", "d", .online, none, 0⟩], 0⟩)] 40000).2.1

/-- C9: with a presence record, `setActiveChat(u, c)` sets
`activeChatId = c` on every ONLINE device and leaves every OFFLINE device
entry unchanged (`c = null` clears it on every ONLINE device), and
afterwards `hasActiveChatOpen(u, c)` returns true exactly when some ONLINE
device has `activeChatId = c`; with no presence record `setActiveChat` is
a no-op and `hasActiveChatOpen` returns false. -/
theorem C9_setActiveChat_spec (store : Store) (now : Nat) (u : String) :
    (lookup store u = none →
      (∀ copt, setActiveChat store now u copt = store)
      ∧ (∀ c, hasActiveChatOpen store u c = false))
    ∧ (∀ p, lookup store u = some p → ∀ copt,
        getPresence (setActiveChat store now u copt) u = some (setActiveChatData p now copt)
        ∧ (setActiveChatData p now copt).devices.length = p.devices.length
        ∧ (∀ (i : Nat) (hi : i < p.devices.length)
            (hi' : i < (setActiveChatData p now copt).devices.length),
            ((p.devices.get ⟨i, hi⟩).status = .online →
              (setActiveChatData p now copt).devices.get ⟨i, hi'⟩
                = { p.devices.get ⟨i, hi⟩ with activeChatId := copt })
            ∧ ((p.devices.get ⟨i, hi⟩).status = .offline →
              (setActiveChatData p now copt).devices.get ⟨i, hi'⟩ = p.devices.get ⟨i, hi⟩))
        ∧ (∀ c, hasActiveChatOpen (setActiveChat store now u copt) u c = true
            ↔ ∃ x ∈ (setActiveChatData p now copt).devices,
                x.status = .online ∧ x.activeChatId = some c)) := by
  constructor
  · intro hnone
    constructor
    · intro copt
      unfold setActiveChat
      rw [hnone]
    · intro c
      unfold hasActiveChatOpen getPresence
      rw [hnone]
  · intro p hp copt
    have h1 : getPresence (setActiveChat store now u copt) u
        = some (setActiveChatData p now copt) := by
      unfold setActiveChat
      rw [hp]
      exact lookup_setKey_self store u _
    have hdevs : (setActiveChatData p now copt).devices
        = p.devices.map
            (fun d => if d.status = .online then { d with activeChatId := copt } else d) := rfl
    refine ⟨h1, by rw [hdevs]; simp, fun i hi hi' => ⟨fun hon => ?_, fun hoff => ?_⟩, fun c => ?_⟩
    · have hon' : (p.devices[i]).status = PStatus.online := by
        simpa using hon
      simp [hdevs, List.getElem_map, hon']
    · have hoff' : (p.devices[i]).status = PStatus.offline := by
        simpa using hoff
      simp [hdevs, List.getElem_map, hoff']
    · unfold hasActiveChatOpen
      rw [h1]
      simp only [List.any_eq_true, decide_eq_true_eq]

/-- C9 witness: setting the active chat for a user with one ONLINE and
one OFFLINE device rewrites the record through `setActiveChatData`. -/
theorem C9_witness :
    getPresence (setActiveChat
        [("u", ⟨.online, [⟨"s1", "d1", .online, none, 1⟩, ⟨"s2", "d2", .offline, none, 2⟩], 3⟩)]
        7 "u" (some "conv")) "u"
      = some (setActiveChatData
          ⟨.online, [⟨"s1", "d1", .online, none, 1⟩, ⟨"s2", "d2", .offline, none, 2⟩], 3⟩
          7 (some "conv")) :=
  ((C9_setActiveChat_spec
    [("u", ⟨.online, [⟨"s1", "d1", .online, none, 1⟩, ⟨"s2", "d2", .offline, none, 2⟩], 3⟩)]
    7 "u").2
    ⟨.online, [⟨"s1", "d1", .online, none, 1⟩, ⟨"s2", "d2", .offline, none, 2⟩], 3⟩
    rfl (some "conv")).1

end ChatSpec
